import Mathlib

/-!
# coin-exporter: the polling loop of `main.go`

A shallow embedding of `retrieveMetrics` (main.go, lines 115-186) and of the six
instruments it writes (lines 28-71).

* The RPC node is an environment: for every iteration of the `for` loop it gives the
  answers (`Client`) the seven queries receive in that iteration.
* `retrieveMetrics` is a deterministic machine: `step` executes one statement of the
  loop body (one query with its `if err != nil` branch, one `Set`, the subsidy
  expression, or the sleep); `exec n` runs `n` statements.
* `float64` values are kept abstract: the type `F` of instrument values and the
  conversion `float64 : Int → F` are parameters.
* The `log.Printf` lines only write to the log and are left out of the trace.
-/

namespace CoinExporter

/-- A Go `error` value returned by the RPC client. -/
structure Error where
  msg : String
deriving DecidableEq, Repr

/-- A block hash (`*chainhash.Hash`), kept as a number. -/
abbrev Hash := Nat

/-- A transaction output, `wire.TxOut`: only its `Value` (an `int64`) is read. -/
structure TxOut where
  Value : Int
deriving DecidableEq, Repr

/-- A transaction, `wire.MsgTx`: only its output slice is read. -/
structure MsgTx where
  TxOut : List TxOut
deriving DecidableEq, Repr

/-- A block, `wire.MsgBlock`: only its transaction slice is read. -/
structure MsgBlock where
  Transactions : List MsgTx
deriving DecidableEq, Repr

/-- The answers of the node to the seven queries during one iteration of the loop.
`Except.error` is the `err != nil` return. -/
structure Client (F : Type) where
  GetBlockCount : Except Error Int
  GetBlockHash : Int → Except Error Hash
  GetBlock : Hash → Except Error MsgBlock
  GetConnectionCount : Except Error Int
  GetDifficulty : Except Error F
  GetHashesPerSec : Except Error Int
  GetNetworkHashPS : Except Error Int

/-- The six package-level instruments of main.go, lines 28-71. -/
inductive Metric
  | BlockCount
  | Subsidy
  | ConnectionCount
  | Difficulty
  | HashesPerSec
  | NetworkHashesPerSec
deriving DecidableEq, Repr

/-- The current value of each of the six instruments. -/
structure Instruments (F : Type) where
  BlockCount : F
  Subsidy : F
  ConnectionCount : F
  Difficulty : F
  HashesPerSec : F
  NetworkHashesPerSec : F
deriving DecidableEq, Repr

/-- The instruments as created by `prometheus.NewCounter` / `prometheus.NewGauge`:
every value is zero. -/
def Instruments.new (F : Type) [Zero F] : Instruments F :=
  ⟨0, 0, 0, 0, 0, 0⟩

/-- Modelled from the spec: the metrics library's `Set` on an instrument (not part of
this repository's sources) is an instantaneous overwrite of that one instrument's
value ("writes are instantaneous sets"); the other five are untouched. -/
def Instruments.Set {F : Type} (i : Instruments F) (m : Metric) (v : F) : Instruments F :=
  match m with
  | .BlockCount => { i with BlockCount := v }
  | .Subsidy => { i with Subsidy := v }
  | .ConnectionCount => { i with ConnectionCount := v }
  | .Difficulty => { i with Difficulty := v }
  | .HashesPerSec => { i with HashesPerSec := v }
  | .NetworkHashesPerSec => { i with NetworkHashesPerSec := v }

/-- The value of one instrument. -/
def Instruments.get {F : Type} (i : Instruments F) (m : Metric) : F :=
  match m with
  | .BlockCount => i.BlockCount
  | .Subsidy => i.Subsidy
  | .ConnectionCount => i.ConnectionCount
  | .Difficulty => i.Difficulty
  | .HashesPerSec => i.HashesPerSec
  | .NetworkHashesPerSec => i.NetworkHashesPerSec

/-- The constant `time.Minute`, a `time.Duration` in nanoseconds. -/
def Minute : Int := 60 * 1000000000

/-- The observable actions of `retrieveMetrics`, in the order they are performed. -/
inductive Event (F : Type)
  | GetBlockCount
  | GetBlockHash (blockHeight : Int)
  | GetBlock (blockHash : Hash)
  | GetConnectionCount
  | GetDifficulty
  | GetHashesPerSec
  | GetNetworkHashPS
  | Set (m : Metric) (v : F)
  | Sleep (d : Int)
  | Fatal (err : Error)
  | Panic
deriving DecidableEq, Repr

/-- The control point of `retrieveMetrics` together with the live local variables.
Each constructor is the statement about to be executed. -/
inductive PC (F : Type)
  /-- line 118: `blockCount, err := client.GetBlockCount()` -/
  | getBlockCount
  /-- line 125: `BlockCount.Set(float64(blockCount))` -/
  | setBlockCount (blockCount : Int)
  /-- line 127: `bestBlockHash, err := client.GetBlockHash(blockCount)` -/
  | getBlockHash (blockCount : Int)
  /-- line 132: `bestBlock, err := client.GetBlock(bestBlockHash)` -/
  | getBlock (bestBlockHash : Hash)
  /-- line 137: `subsidy := bestBlock.Transactions[0].TxOut[0].Value / 100000000` -/
  | subsidy (bestBlock : MsgBlock)
  /-- line 141: `Subsidy.Set(float64(subsidy))` -/
  | setSubsidy (subsidy : Int)
  /-- line 144: `connectionCount, err := client.GetConnectionCount()` -/
  | getConnectionCount
  /-- line 151: `ConnectionCount.Set(float64(connectionCount))` -/
  | setConnectionCount (connectionCount : Int)
  /-- line 154: `difficulty, err := client.GetDifficulty()` -/
  | getDifficulty
  /-- line 161: `Difficulty.Set(difficulty)` -/
  | setDifficulty (difficulty : F)
  /-- line 164: `hashesPerSec, err := client.GetHashesPerSec()` -/
  | getHashesPerSec
  /-- line 171: `HashesPerSec.Set(float64(hashesPerSec))` -/
  | setHashesPerSec (hashesPerSec : Int)
  /-- line 174: `networkHashesPerSec, err := client.GetNetworkHashPS()` -/
  | getNetworkHashPS
  /-- line 181: `NetworkHashesPerSec.Set(float64(networkHashesPerSec))` -/
  | setNetworkHashesPerSec (networkHashesPerSec : Int)
  /-- line 184: `time.Sleep(time.Minute)` -/
  | sleep
  /-- after `log.Fatal(err)`: the process has exited with status 1 -/
  | exited (err : Error)
  /-- after a run-time panic (index out of range): the process has crashed -/
  | panicked
deriving DecidableEq, Repr

/-- The state of the process: where `retrieveMetrics` stands, how many iterations of
the loop are complete, the instruments, and the actions performed so far. -/
structure State (F : Type) where
  pc : PC F
  cycle : Nat
  inst : Instruments F
  trace : List (Event F)
deriving DecidableEq, Repr

/-- The state at process start: `retrieveMetrics` is about to run line 118 for the
first time and every instrument is zero. -/
def init (F : Type) [Zero F] : State F :=
  { pc := .getBlockCount, cycle := 0, inst := Instruments.new F, trace := [] }

/-- A query returned a value: record the query and move on. -/
def State.next {F : Type} (s : State F) (e : Event F) (pc : PC F) : State F :=
  { s with pc := pc, trace := s.trace ++ [e] }

/-- A query returned an error: `log.Fatal(err)` ends the process. -/
def State.fatal {F : Type} (s : State F) (e : Event F) (err : Error) : State F :=
  { s with pc := .exited err, trace := s.trace ++ [e, .Fatal err] }

/-- One `X.Set(v)` statement. -/
def State.set {F : Type} (s : State F) (m : Metric) (v : F) (pc : PC F) : State F :=
  { s with pc := pc, inst := s.inst.Set m v, trace := s.trace ++ [.Set m v] }

/-- One statement of the body of `retrieveMetrics` (main.go, lines 116-185).
`float64` is Go's conversion `float64(x)` of an `int64`; `env k` holds the node's
answers during iteration `k`. A terminated process stays as it is. -/
def step {F : Type} (float64 : Int → F) (env : Nat → Client F) (s : State F) : State F :=
  let client := env s.cycle
  match s.pc with
  | .getBlockCount =>
    match client.GetBlockCount with
    | .error err => s.fatal .GetBlockCount err
    | .ok blockCount => s.next .GetBlockCount (.setBlockCount blockCount)
  | .setBlockCount blockCount =>
    s.set .BlockCount (float64 blockCount) (.getBlockHash blockCount)
  | .getBlockHash blockCount =>
    match client.GetBlockHash blockCount with
    | .error err => s.fatal (.GetBlockHash blockCount) err
    | .ok bestBlockHash => s.next (.GetBlockHash blockCount) (.getBlock bestBlockHash)
  | .getBlock bestBlockHash =>
    match client.GetBlock bestBlockHash with
    | .error err => s.fatal (.GetBlock bestBlockHash) err
    | .ok bestBlock => s.next (.GetBlock bestBlockHash) (.subsidy bestBlock)
  | .subsidy bestBlock =>
    match bestBlock.Transactions[0]? with
    | none => { s with pc := .panicked, trace := s.trace ++ [.Panic] }
    | some tx =>
      match tx.TxOut[0]? with
      | none => { s with pc := .panicked, trace := s.trace ++ [.Panic] }
      | some out => { s with pc := .setSubsidy (Int.tdiv out.Value 100000000) }
  | .setSubsidy subsidy =>
    s.set .Subsidy (float64 subsidy) .getConnectionCount
  | .getConnectionCount =>
    match client.GetConnectionCount with
    | .error err => s.fatal .GetConnectionCount err
    | .ok connectionCount => s.next .GetConnectionCount (.setConnectionCount connectionCount)
  | .setConnectionCount connectionCount =>
    s.set .ConnectionCount (float64 connectionCount) .getDifficulty
  | .getDifficulty =>
    match client.GetDifficulty with
    | .error err => s.fatal .GetDifficulty err
    | .ok difficulty => s.next .GetDifficulty (.setDifficulty difficulty)
  | .setDifficulty difficulty =>
    s.set .Difficulty difficulty .getHashesPerSec
  | .getHashesPerSec =>
    match client.GetHashesPerSec with
    | .error err => s.fatal .GetHashesPerSec err
    | .ok hashesPerSec => s.next .GetHashesPerSec (.setHashesPerSec hashesPerSec)
  | .setHashesPerSec hashesPerSec =>
    s.set .HashesPerSec (float64 hashesPerSec) .getNetworkHashPS
  | .getNetworkHashPS =>
    match client.GetNetworkHashPS with
    | .error err => s.fatal .GetNetworkHashPS err
    | .ok networkHashesPerSec =>
      s.next .GetNetworkHashPS (.setNetworkHashesPerSec networkHashesPerSec)
  | .setNetworkHashesPerSec networkHashesPerSec =>
    s.set .NetworkHashesPerSec (float64 networkHashesPerSec) .sleep
  | .sleep =>
    { s with pc := .getBlockCount, cycle := s.cycle + 1, trace := s.trace ++ [.Sleep Minute] }
  | .exited _ => s
  | .panicked => s

/-- Run `n` statements of `retrieveMetrics`. -/
def exec {F : Type} (float64 : Int → F) (env : Nat → Client F) : Nat → State F → State F
  | 0, s => s
  | n + 1, s => exec float64 env n (step float64 env s)

/-- The process has ended (fatal exit or crash). -/
def State.terminated {F : Type} (s : State F) : Bool :=
  match s.pc with
  | .exited _ => true
  | .panicked => true
  | _ => false

/-- Modelled from the spec: a scrape (the `/metrics` handler of the metrics library,
not part of this repository's sources) is a point-in-time read of the six instruments;
it returns the snapshot and leaves the process state as it was. -/
def scrape {F : Type} (s : State F) : Instruments F × State F :=
  (s.inst, s)

/-- The snapshots returned by `n` scrapes in a row, with the state after them. -/
def scrapes {F : Type} : Nat → State F → List (Instruments F) × State F
  | 0, s => ([], s)
  | n + 1, s =>
    let r := scrape s
    let rest := scrapes n r.2
    (r.1 :: rest.1, rest.2)

/-- Every query of one iteration returns without error: the height `h`, the hash `x`
of the block at height `h`, the block `b` with hash `x`, and the four scalars. -/
def Client.Answers {F : Type} (c : Client F) (h : Int) (x : Hash) (b : MsgBlock)
    (n : Int) (d : F) (hps nhps : Int) : Prop :=
  c.GetBlockCount = .ok h ∧ c.GetBlockHash h = .ok x ∧ c.GetBlock x = .ok b ∧
  c.GetConnectionCount = .ok n ∧ c.GetDifficulty = .ok d ∧
  c.GetHashesPerSec = .ok hps ∧ c.GetNetworkHashPS = .ok nhps

/-- The actions of one successful iteration, in order. -/
def cycleEvents {F : Type} (float64 : Int → F) (h : Int) (x : Hash) (q : Int)
    (n : Int) (d : F) (hps nhps : Int) : List (Event F) :=
  [.GetBlockCount, .Set .BlockCount (float64 h), .GetBlockHash h, .GetBlock x,
   .Set .Subsidy (float64 q), .GetConnectionCount, .Set .ConnectionCount (float64 n),
   .GetDifficulty, .Set .Difficulty d, .GetHashesPerSec, .Set .HashesPerSec (float64 hps),
   .GetNetworkHashPS, .Set .NetworkHashesPerSec (float64 nhps)]

/-- The query the process is about to issue, and the error it returns, when the
statement about to run is one of the seven queries and the node answers it with an
error; `none` otherwise. -/
def pendingFailure {F : Type} (env : Nat → Client F) (s : State F) :
    Option (Event F × Error) :=
  let client := env s.cycle
  match s.pc with
  | .getBlockCount =>
    match client.GetBlockCount with
    | .error err => some (.GetBlockCount, err)
    | .ok _ => none
  | .getBlockHash blockCount =>
    match client.GetBlockHash blockCount with
    | .error err => some (.GetBlockHash blockCount, err)
    | .ok _ => none
  | .getBlock bestBlockHash =>
    match client.GetBlock bestBlockHash with
    | .error err => some (.GetBlock bestBlockHash, err)
    | .ok _ => none
  | .getConnectionCount =>
    match client.GetConnectionCount with
    | .error err => some (.GetConnectionCount, err)
    | .ok _ => none
  | .getDifficulty =>
    match client.GetDifficulty with
    | .error err => some (.GetDifficulty, err)
    | .ok _ => none
  | .getHashesPerSec =>
    match client.GetHashesPerSec with
    | .error err => some (.GetHashesPerSec, err)
    | .ok _ => none
  | .getNetworkHashPS =>
    match client.GetNetworkHashPS with
    | .error err => some (.GetNetworkHashPS, err)
    | .ok _ => none
  | _ => none

/-- The actions that are RPC queries or the sleep (everything but `Set`, the fatal
exit and the panic). -/
def Event.isQueryOrSleep {F : Type} : Event F → Bool
  | .Set _ _ => false
  | .Fatal _ => false
  | .Panic => false
  | _ => true

/-! ## Concrete nodes used to evaluate the model

Instrument values are integers here and `float64` is the identity, which is what the
conversion does on the small integers used. -/

/-- A block whose first transaction pays 500000000000 base units in its first output. -/
def okBlock : MsgBlock := ⟨[⟨[⟨500000000000⟩, ⟨42⟩]⟩, ⟨[]⟩]⟩

/-- A block without transactions. -/
def emptyBlock : MsgBlock := ⟨[]⟩

/-- A node that answers every query. -/
def okClient : Client Int :=
  { GetBlockCount := .ok 120
    GetBlockHash := fun _ => .ok 7
    GetBlock := fun _ => .ok okBlock
    GetConnectionCount := .ok 8
    GetDifficulty := .ok 3
    GetHashesPerSec := .ok 1000
    GetNetworkHashPS := .ok 2000 }

/-- The node answers every query in every iteration. -/
def envOk : Nat → Client Int := fun _ => okClient

/-- The node answers every query but `GetBlockHash`. -/
def envHashFails : Nat → Client Int :=
  fun _ => { okClient with GetBlockHash := fun _ => .error ⟨"rpc failure"⟩ }

/-- The node answers every query; the height is 5 in the first iteration and 3 in
all later ones (the chain tip moved to a shorter branch). -/
def envReorg : Nat → Client Int :=
  fun k => { okClient with GetBlockCount := if k = 0 then .ok 5 else .ok 3 }

/-- The node answers every query; the block it returns has no transactions. -/
def envEmptyBlock : Nat → Client Int :=
  fun _ => { okClient with GetBlock := fun _ => .ok emptyBlock }

/-- The node answers every query but `GetDifficulty`. -/
def envDifficultyFails : Nat → Client Int :=
  fun _ => { okClient with GetDifficulty := .error ⟨"timeout"⟩ }

/-- The node answers every query but `GetNetworkHashPS`. -/
def envNetworkHashFails : Nat → Client Int :=
  fun _ => { okClient with GetNetworkHashPS := .error ⟨"timeout"⟩ }

/-- The node answers every query; the height is `100 + k` in iteration `k`. -/
def envGrowing : Nat → Client Int :=
  fun k => { okClient with GetBlockCount := .ok (100 + (k : Int)) }

/-- The invariant behind the monotone case of block_count: the instrument holds the
conversion of an integer `b` that no height still to be returned undercuts, and the
height about to be written at line 125 is the one the node returned in this
iteration. -/
def BlockCountInv {F : Type} (float64 : Int → F) (env : Nat → Client F) (s : State F) :
    Prop :=
  ∃ b : Int, s.inst.BlockCount = float64 b ∧
    (∀ j h, s.cycle ≤ j → (env j).GetBlockCount = .ok h → b ≤ h) ∧
    (∀ h, s.pc = .setBlockCount h → (env s.cycle).GetBlockCount = .ok h)

/-- The value `v` is the one an iteration answered by `c` writes to instrument `m`:
the converted answer of the instrument's query (for subsidy: the converted truncated
quotient of the first output value of the first transaction of the block found through
GetBlockCount, GetBlockHash and GetBlock). -/
def IsCycleValue {F : Type} (float64 : Int → F) (c : Client F) (m : Metric) (v : F) :
    Prop :=
  match m with
  | .BlockCount => ∃ h, c.GetBlockCount = .ok h ∧ v = float64 h
  | .Subsidy =>
    ∃ h x b tx out, c.GetBlockCount = .ok h ∧ c.GetBlockHash h = .ok x ∧
      c.GetBlock x = .ok b ∧ b.Transactions[0]? = some tx ∧ tx.TxOut[0]? = some out ∧
      v = float64 (Int.tdiv out.Value 100000000)
  | .ConnectionCount => ∃ n, c.GetConnectionCount = .ok n ∧ v = float64 n
  | .Difficulty => c.GetDifficulty = .ok v
  | .HashesPerSec => ∃ n, c.GetHashesPerSec = .ok n ∧ v = float64 n
  | .NetworkHashesPerSec => ∃ n, c.GetNetworkHashPS = .ok n ∧ v = float64 n

/-- The local variables held at a control point are the answers the node gave in this
iteration. -/
def PcOk {F : Type} (float64 : Int → F) (c : Client F) : PC F → Prop
  | .setBlockCount h => c.GetBlockCount = .ok h
  | .getBlockHash h => c.GetBlockCount = .ok h
  | .getBlock x => ∃ h, c.GetBlockCount = .ok h ∧ c.GetBlockHash h = .ok x
  | .subsidy b =>
    ∃ h x, c.GetBlockCount = .ok h ∧ c.GetBlockHash h = .ok x ∧ c.GetBlock x = .ok b
  | .setSubsidy q => IsCycleValue float64 c .Subsidy (float64 q)
  | .setConnectionCount n => c.GetConnectionCount = .ok n
  | .setDifficulty d => c.GetDifficulty = .ok d
  | .setHashesPerSec n => c.GetHashesPerSec = .ok n
  | .setNetworkHashesPerSec n => c.GetNetworkHashPS = .ok n
  | _ => True

/-- The instruments `i` against the instruments `i0` at the start of the iteration,
given the actions `l` performed since: an instrument without a `Set` in `l` is as in
`i0`, and an instrument with a `Set` in `l` holds the value of this iteration. -/
def Written {F : Type} (float64 : Int → F) (c : Client F) (i0 i : Instruments F)
    (l : List (Event F)) : Prop :=
  ∀ m, ((∀ v, Event.Set m v ∉ l) → i.get m = i0.get m) ∧
    ((∃ v, Event.Set m v ∈ l) → IsCycleValue float64 c m (i.get m))

/-- The invariant of one iteration started in `s0` at line 118: `s` is in the same
iteration, its locals are this iteration's answers, and its instruments are those of
`s0` overwritten by this iteration's values where a `Set` was performed. -/
def CycleInv {F : Type} (float64 : Int → F) (env : Nat → Client F) (s0 s : State F) :
    Prop :=
  s.cycle = s0.cycle ∧ PcOk float64 (env s0.cycle) s.pc ∧
    ∃ l, s.trace = s0.trace ++ l ∧ Written float64 (env s0.cycle) s0.inst s.inst l

/-! ## General facts about `exec` -/

section Lemmas

variable {F : Type} (float64 : Int → F) (env : Nat → Client F)

theorem exec_add (m n : Nat) (s : State F) :
    exec float64 env (m + n) s = exec float64 env n (exec float64 env m s) := by
  induction m generalizing s with
  | zero => simp [exec]
  | succ m ih => rw [Nat.succ_add]; simp only [exec]; exact ih _

theorem exec_succ_last (n : Nat) (s : State F) :
    exec float64 env (n + 1) s = step float64 env (exec float64 env n s) := by
  rw [exec_add]; rfl

theorem step_of_terminated (s : State F) (h : s.terminated = true) :
    step float64 env s = s := by
  obtain ⟨pc, k, i, t⟩ := s
  cases pc <;> simp_all [State.terminated, step]

theorem exec_of_terminated (n : Nat) (s : State F) (h : s.terminated = true) :
    exec float64 env n s = s := by
  induction n with
  | zero => rfl
  | succ n ih => simp only [exec]; rw [step_of_terminated float64 env s h]; exact ih

/-- The first fourteen statements of a successful iteration: the process stands at the
sleep with all six instruments written. -/
theorem exec_cycle_to_sleep (s : State F) (h : Int) (x : Hash) (b : MsgBlock) (tx : MsgTx)
    (out : TxOut) (n : Int) (d : F) (hps nhps : Int)
    (hpc : s.pc = .getBlockCount)
    (hc : (env s.cycle).Answers h x b n d hps nhps)
    (htx : b.Transactions[0]? = some tx) (hout : tx.TxOut[0]? = some out) :
    exec float64 env 14 s =
      { pc := .sleep, cycle := s.cycle,
        inst := ⟨float64 h, float64 (Int.tdiv out.Value 100000000), float64 n, d,
                 float64 hps, float64 nhps⟩,
        trace := s.trace ++
          cycleEvents float64 h x (Int.tdiv out.Value 100000000) n d hps nhps } := by
  obtain ⟨pc, k, i, t⟩ := s
  obtain ⟨h1, h2, h3, h4, h5, h6, h7⟩ := hc
  simp only at hpc h1 h2 h3 h4 h5 h6 h7
  subst hpc
  simp [exec, step, State.next, State.set, Instruments.Set, cycleEvents,
    h1, h2, h3, h4, h5, h6, h7, htx, hout]

/-- The first five statements of a successful iteration: the local `subsidy` holds the
truncated quotient and only block_count has been written. -/
theorem exec_cycle_to_setSubsidy (s : State F) (h : Int) (x : Hash) (b : MsgBlock)
    (tx : MsgTx) (out : TxOut)
    (hpc : s.pc = .getBlockCount)
    (h1 : (env s.cycle).GetBlockCount = .ok h)
    (h2 : (env s.cycle).GetBlockHash h = .ok x)
    (h3 : (env s.cycle).GetBlock x = .ok b)
    (htx : b.Transactions[0]? = some tx) (hout : tx.TxOut[0]? = some out) :
    exec float64 env 5 s =
      { pc := .setSubsidy (Int.tdiv out.Value 100000000), cycle := s.cycle,
        inst := { s.inst with BlockCount := float64 h },
        trace := s.trace ++
          [.GetBlockCount, .Set .BlockCount (float64 h), .GetBlockHash h, .GetBlock x] } := by
  obtain ⟨pc, k, i, t⟩ := s
  simp only at hpc h1 h2 h3
  subst hpc
  simp [exec, step, State.next, State.set, Instruments.Set, h1, h2, h3, htx, hout]

/-- Go's `/` on a non-negative `int64` and the positive constant 10^8 is the floor
quotient: it is the only `q` with `q * 10^8 ≤ v < (q + 1) * 10^8`. -/
theorem tdiv_unique (v q : Int) (hv : 0 ≤ v) :
    (q * 10 ^ 8 ≤ v ∧ v < (q + 1) * 10 ^ 8) ↔ q = Int.tdiv v 100000000 := by
  have e : Int.tdiv v 100000000 = v / 100000000 := Int.tdiv_eq_ediv hv (by norm_num)
  have e10 : (10 : Int) ^ 8 = 100000000 := by norm_num
  rw [e, e10]
  constructor
  · rintro ⟨h1, h2⟩
    omega
  · intro hq
    subst hq
    constructor <;> omega

/-- A whole successful iteration: fifteen statements lead from line 118 back to
line 118 of the next iteration. -/
theorem exec_cycle (s : State F) (h : Int) (x : Hash) (b : MsgBlock) (tx : MsgTx)
    (out : TxOut) (n : Int) (d : F) (hps nhps : Int)
    (hpc : s.pc = .getBlockCount)
    (hc : (env s.cycle).Answers h x b n d hps nhps)
    (htx : b.Transactions[0]? = some tx) (hout : tx.TxOut[0]? = some out) :
    exec float64 env 15 s =
      { pc := .getBlockCount, cycle := s.cycle + 1,
        inst := ⟨float64 h, float64 (Int.tdiv out.Value 100000000), float64 n, d,
                 float64 hps, float64 nhps⟩,
        trace := s.trace ++
          (cycleEvents float64 h x (Int.tdiv out.Value 100000000) n d hps nhps ++
            [.Sleep Minute]) } := by
  rw [show (15 : Nat) = 14 + 1 from rfl, exec_succ_last,
    exec_cycle_to_sleep float64 env s h x b tx out n d hps nhps hpc hc htx hout]
  simp [step]

/-- Scrapes return the current instruments and leave the state alone. -/
theorem scrapes_eq (k : Nat) (s : State F) :
    scrapes k s = (List.replicate k s.inst, s) := by
  induction k with
  | zero => rfl
  | succ k ih => simp [scrapes, scrape, ih, List.replicate_succ]

/-- A failing query: `log.Fatal` ends the process at that statement, with the
instruments and the iteration count as they were. -/
theorem step_of_pendingFailure (s : State F) (q : Event F) (err : Error)
    (hfail : pendingFailure env s = some (q, err)) :
    step float64 env s =
      { s with pc := .exited err, trace := s.trace ++ [q, .Fatal err] } ∧
      q.isQueryOrSleep = true := by
  obtain ⟨pc, k, i, t⟩ := s
  cases pc <;> simp only [pendingFailure] at hfail <;> try exact absurd hfail (by simp)
  all_goals
    split at hfail
    · simp only [Option.some.injEq, Prod.mk.injEq] at hfail
      obtain ⟨rfl, rfl⟩ := hfail
      simp_all [step, State.fatal, Event.isQueryOrSleep]
    · exact absurd hfail (by simp)

/-- Frame property of one statement: it appends to the trace, and an instrument
changes only when the appended part holds a `Set` of that instrument. -/
theorem step_frame (s : State F) :
    ∃ l, (step float64 env s).trace = s.trace ++ l ∧
      ∀ m, (∀ v, Event.Set m v ∉ l) → (step float64 env s).inst.get m = s.inst.get m := by
  obtain ⟨pc, k, i, t⟩ := s
  cases pc <;> simp only [step]
  case getBlockCount =>
    split
    · exact ⟨_, rfl, fun _ _ => rfl⟩
    · exact ⟨_, rfl, fun _ _ => rfl⟩
  case getBlockHash =>
    split
    · exact ⟨_, rfl, fun _ _ => rfl⟩
    · exact ⟨_, rfl, fun _ _ => rfl⟩
  case getBlock =>
    split
    · exact ⟨_, rfl, fun _ _ => rfl⟩
    · exact ⟨_, rfl, fun _ _ => rfl⟩
  case getConnectionCount =>
    split
    · exact ⟨_, rfl, fun _ _ => rfl⟩
    · exact ⟨_, rfl, fun _ _ => rfl⟩
  case getDifficulty =>
    split
    · exact ⟨_, rfl, fun _ _ => rfl⟩
    · exact ⟨_, rfl, fun _ _ => rfl⟩
  case getHashesPerSec =>
    split
    · exact ⟨_, rfl, fun _ _ => rfl⟩
    · exact ⟨_, rfl, fun _ _ => rfl⟩
  case getNetworkHashPS =>
    split
    · exact ⟨_, rfl, fun _ _ => rfl⟩
    · exact ⟨_, rfl, fun _ _ => rfl⟩
  case subsidy =>
    split
    · exact ⟨_, rfl, fun _ _ => rfl⟩
    · split
      · exact ⟨_, rfl, fun _ _ => rfl⟩
      · exact ⟨[], by simp, fun _ _ => rfl⟩
  case sleep => exact ⟨_, rfl, fun _ _ => trivial⟩
  case exited => exact ⟨[], by simp, fun _ _ => trivial⟩
  case panicked => exact ⟨[], by simp, fun _ _ => trivial⟩
  all_goals
    refine ⟨_, rfl, fun m hm => ?_⟩
    cases m <;> first | rfl | exact absurd (List.mem_singleton.2 rfl) (hm _)

/-- Frame property of a run: an instrument on which no `Set` was performed during the
run has the value it had before the run. -/
theorem exec_frame (n : Nat) (s : State F) :
    ∃ l, (exec float64 env n s).trace = s.trace ++ l ∧
      ∀ m, (∀ v, Event.Set m v ∉ l) → (exec float64 env n s).inst.get m = s.inst.get m := by
  induction n with
  | zero => exact ⟨[], by simp [exec], fun _ _ => rfl⟩
  | succ n ih =>
    obtain ⟨l, hl, hf⟩ := ih
    obtain ⟨l1, hl1, hf1⟩ := step_frame float64 env (exec float64 env n s)
    refine ⟨l ++ l1, ?_, fun m hm => ?_⟩
    · rw [exec_succ_last, hl1, hl, List.append_assoc]
    · rw [exec_succ_last, hf1 m (fun v hv => hm v (List.mem_append_right _ hv)),
        hf m (fun v hv => hm v (List.mem_append_left _ hv))]

end Lemmas

/-! ## The invariant of one iteration -/

section Cycle

variable {F : Type} (float64 : Int → F) (env : Nat → Client F)

theorem get_Set_same (i : Instruments F) (m : Metric) (v : F) :
    (i.Set m v).get m = v := by
  cases m <;> rfl

theorem get_Set_other (i : Instruments F) (m m1 : Metric) (v : F) (h : m1 ≠ m) :
    (i.Set m v).get m1 = i.get m1 := by
  cases m <;> cases m1 <;> first | rfl | exact absurd rfl h

theorem written_append_noset (c : Client F) (i0 i : Instruments F) (l l1 : List (Event F))
    (hw : Written float64 c i0 i l) (h1 : ∀ m v, Event.Set m v ∉ l1) :
    Written float64 c i0 i (l ++ l1) := by
  intro m
  refine ⟨fun hm => (hw m).1 (fun v hv => hm v (List.mem_append_left _ hv)), ?_⟩
  rintro ⟨v, hv⟩
  rcases List.mem_append.1 hv with h | h
  · exact (hw m).2 ⟨v, h⟩
  · exact absurd h (h1 m v)

theorem written_append_set (c : Client F) (i0 i : Instruments F) (l : List (Event F))
    (m : Metric) (v : F)
    (hw : Written float64 c i0 i l) (hv : IsCycleValue float64 c m v) :
    Written float64 c i0 (i.Set m v) (l ++ [.Set m v]) := by
  intro m1
  by_cases hm : m1 = m
  · subst hm
    refine ⟨fun h => absurd (List.mem_append_right _ (List.mem_singleton.2 rfl)) (h v), ?_⟩
    intro _
    rw [get_Set_same]
    exact hv
  · rw [get_Set_other i m m1 v hm]
    refine ⟨fun h => (hw m1).1 (fun w hw1 => h w (List.mem_append_left _ hw1)), ?_⟩
    rintro ⟨w, hw1⟩
    rcases List.mem_append.1 hw1 with h | h
    · exact (hw m1).2 ⟨w, h⟩
    · rw [List.mem_singleton] at h
      injection h with h2 _
      exact absurd h2 hm

theorem step_cycle_le (s : State F) : s.cycle ≤ (step float64 env s).cycle := by
  obtain ⟨pc, k, i, t⟩ := s
  cases pc <;> simp only [step, State.set, State.next, State.fatal] <;>
    first
    | exact Nat.le_refl _
    | exact Nat.le_succ _
    | (split <;> first | exact Nat.le_refl _ | (split <;> exact Nat.le_refl _))

theorem exec_cycle_le (n : Nat) (s : State F) : s.cycle ≤ (exec float64 env n s).cycle := by
  induction n with
  | zero => exact Nat.le_refl _
  | succ n ih =>
    rw [exec_succ_last]
    exact Nat.le_trans ih (step_cycle_le float64 env _)

/-- One statement that stays in the iteration keeps the invariant. -/
theorem step_cycleInv (s0 s : State F) (hI : CycleInv float64 env s0 s)
    (hc : (step float64 env s).cycle = s0.cycle) :
    CycleInv float64 env s0 (step float64 env s) := by
  obtain ⟨pc, k, i, t⟩ := s
  obtain ⟨hk, hp, l, hl, hw⟩ := hI
  simp only at hk hp hl hw
  subst hk
  have noset1 : ∀ e : Event F, e.isQueryOrSleep = true → ∀ m v, Event.Set m v ∉ [e] := by
    intro e he m v hm
    rw [List.mem_singleton] at hm
    subst hm
    exact absurd he (by simp [Event.isQueryOrSleep])
  have noset2 : ∀ (e : Event F) (err : Error), e.isQueryOrSleep = true →
      ∀ m v, Event.Set m v ∉ [e, Event.Fatal err] := by
    intro e err he m v hm
    rcases List.mem_cons.1 hm with h | h
    · subst h
      exact absurd he (by simp [Event.isQueryOrSleep])
    · rw [List.mem_singleton] at h
      cases h
  have hnext : ∀ (e : Event F) (pc1 : PC F), e.isQueryOrSleep = true →
      PcOk float64 (env s0.cycle) pc1 →
      CycleInv float64 env s0 (State.next ⟨pc, s0.cycle, i, t⟩ e pc1) := by
    intro e pc1 he hp1
    exact ⟨rfl, hp1, l ++ [e], by simp [State.next, hl],
      written_append_noset float64 _ _ _ _ _ hw (noset1 e he)⟩
  have hfatal : ∀ (e : Event F) (err : Error), e.isQueryOrSleep = true →
      CycleInv float64 env s0 (State.fatal ⟨pc, s0.cycle, i, t⟩ e err) := by
    intro e err he
    exact ⟨rfl, trivial, l ++ [e, Event.Fatal err], by simp [State.fatal, hl],
      written_append_noset float64 _ _ _ _ _ hw (noset2 e err he)⟩
  have hset : ∀ (m : Metric) (v : F) (pc1 : PC F),
      IsCycleValue float64 (env s0.cycle) m v → PcOk float64 (env s0.cycle) pc1 →
      CycleInv float64 env s0 (State.set ⟨pc, s0.cycle, i, t⟩ m v pc1) := by
    intro m v pc1 hv hp1
    exact ⟨rfl, hp1, l ++ [Event.Set m v], by simp [State.set, hl],
      written_append_set float64 _ _ _ _ m v hw hv⟩
  have hpanic : CycleInv float64 env s0
      { pc := .panicked, cycle := s0.cycle, inst := i, trace := t ++ [.Panic] } := by
    refine ⟨rfl, trivial, l ++ [Event.Panic], by simp [hl],
      written_append_noset float64 _ _ _ _ _ hw ?_⟩
    intro m v hm
    rw [List.mem_singleton] at hm
    cases hm
  cases pc with
  | getBlockCount =>
    simp only [step]
    split
    · exact hfatal _ _ rfl
    · next h heq => exact hnext _ _ rfl heq
  | setBlockCount h => exact hset _ _ _ ⟨h, hp, rfl⟩ hp
  | getBlockHash h =>
    simp only [step]
    split
    · exact hfatal _ _ rfl
    · next x heq => exact hnext _ _ rfl ⟨h, hp, heq⟩
  | getBlock x =>
    obtain ⟨h, h1, h2⟩ := hp
    simp only [step]
    split
    · exact hfatal _ _ rfl
    · next b heq => exact hnext _ _ rfl ⟨h, x, h1, h2, heq⟩
  | subsidy b =>
    obtain ⟨h, x, h1, h2, h3⟩ := hp
    simp only [step]
    split
    · exact hpanic
    · next tx htx =>
      split
      · exact hpanic
      · next out hout =>
        exact ⟨rfl, ⟨h, x, b, tx, out, h1, h2, h3, htx, hout, rfl⟩, l, hl, hw⟩
  | setSubsidy q => exact hset _ _ _ hp trivial
  | getConnectionCount =>
    simp only [step]
    split
    · exact hfatal _ _ rfl
    · next n heq => exact hnext _ _ rfl heq
  | setConnectionCount n => exact hset _ _ _ ⟨n, hp, rfl⟩ trivial
  | getDifficulty =>
    simp only [step]
    split
    · exact hfatal _ _ rfl
    · next d heq => exact hnext _ _ rfl heq
  | setDifficulty d => exact hset _ _ _ hp trivial
  | getHashesPerSec =>
    simp only [step]
    split
    · exact hfatal _ _ rfl
    · next n heq => exact hnext _ _ rfl heq
  | setHashesPerSec n => exact hset _ _ _ ⟨n, hp, rfl⟩ trivial
  | getNetworkHashPS =>
    simp only [step]
    split
    · exact hfatal _ _ rfl
    · next n heq => exact hnext _ _ rfl heq
  | setNetworkHashesPerSec n => exact hset _ _ _ ⟨n, hp, rfl⟩ trivial
  | sleep =>
    have hc2 : s0.cycle + 1 = s0.cycle := hc
    omega
  | exited err => exact ⟨rfl, trivial, l, hl, hw⟩
  | panicked => exact ⟨rfl, trivial, l, hl, hw⟩

/-- Every state of the iteration started in `s0` at line 118 satisfies the invariant. -/
theorem exec_cycleInv (s0 : State F) (hpc : s0.pc = .getBlockCount) (n : Nat)
    (hc : (exec float64 env n s0).cycle = s0.cycle) :
    CycleInv float64 env s0 (exec float64 env n s0) := by
  induction n with
  | zero =>
    refine ⟨rfl, ?_, [], by simp [exec], fun m => ⟨fun _ => rfl, ?_⟩⟩
    · show PcOk float64 (env s0.cycle) s0.pc
      rw [hpc]
      trivial
    · rintro ⟨v, hv⟩
      cases hv
  | succ n ih =>
    rw [exec_succ_last] at hc ⊢
    have h1 := exec_cycle_le float64 env n s0
    have h2 := step_cycle_le float64 env (exec float64 env n s0)
    exact step_cycleInv float64 env s0 _ (ih (by omega)) hc

end Cycle

/-! ## The successful iteration -/

section Success

variable {F : Type} (float64 : Int → F) (env : Nat → Client F)

/-- C1: after a successful iteration started at line 118 (all seven queries answer
and the block has a first transaction with a first output), whatever the instruments
held before, block_count is the converted height, subsidy the converted quotient of
the first output value by 10^8, and the four other instruments the converted (for
difficulty: unconverted) answers of their queries; the process is back at line 118 in
the next iteration, and the six values do not depend on the prior instrument state. -/
theorem retrieveMetrics_cycle_publishes_latest (s : State F) (h : Int) (x : Hash)
    (b : MsgBlock) (tx : MsgTx) (out : TxOut) (n : Int) (d : F) (hps nhps : Int)
    (hpc : s.pc = .getBlockCount)
    (hc : (env s.cycle).Answers h x b n d hps nhps)
    (htx : b.Transactions[0]? = some tx) (hout : tx.TxOut[0]? = some out) :
    (exec float64 env 15 s).inst =
        { BlockCount := float64 h
          Subsidy := float64 (Int.tdiv out.Value (10 ^ 8))
          ConnectionCount := float64 n
          Difficulty := d
          HashesPerSec := float64 hps
          NetworkHashesPerSec := float64 nhps } ∧
      (exec float64 env 15 s).pc = .getBlockCount ∧
      (exec float64 env 15 s).cycle = s.cycle + 1 ∧
      ∀ prior : Instruments F,
        (exec float64 env 15 { s with inst := prior }).inst = (exec float64 env 15 s).inst := by
  have key : ∀ t : State F, t.pc = .getBlockCount → t.cycle = s.cycle →
      exec float64 env 15 t =
        { pc := .getBlockCount, cycle := s.cycle + 1,
          inst := ⟨float64 h, float64 (Int.tdiv out.Value 100000000), float64 n, d,
                   float64 hps, float64 nhps⟩,
          trace := t.trace ++
            cycleEvents float64 h x (Int.tdiv out.Value 100000000) n d hps nhps ++
            [.Sleep Minute] } := by
    intro t ht hk
    rw [show (15 : Nat) = 14 + 1 from rfl, exec_succ_last,
      exec_cycle_to_sleep float64 env t h x b tx out n d hps nhps ht (hk ▸ hc) htx hout]
    simp [step, hk]
  have e10 : (10 : Int) ^ 8 = 100000000 := by norm_num
  refine ⟨?_, ?_, ?_, ?_⟩
  · rw [key s hpc rfl, e10]
  · rw [key s hpc rfl]
  · rw [key s hpc rfl]
  · intro prior
    rw [key s hpc rfl, key { s with inst := prior } hpc rfl]

/-- Witness of C1 on the node `envOk`, from process start. -/
theorem retrieveMetrics_cycle_publishes_latest_witness :
    (envOk (init Int).cycle).Answers 120 7 okBlock 8 3 1000 2000 ∧
      (exec id envOk 15 (init Int)).inst = ⟨120, 5000, 8, 3, 1000, 2000⟩ :=
  ⟨⟨rfl, rfl, rfl, rfl, rfl, rfl, rfl⟩,
   (retrieveMetrics_cycle_publishes_latest id envOk (init Int) 120 7 okBlock
      ⟨[⟨500000000000⟩, ⟨42⟩]⟩ ⟨500000000000⟩ 8 3 1000 2000 rfl
      ⟨rfl, rfl, rfl, rfl, rfl, rfl, rfl⟩ rfl rfl).1⟩

/-- C2: in a successful iteration whose block pays a non-negative value `v` in the
first output of its first transaction, the local `subsidy` computed at line 137 is the
unique integer `q` with `q * 10^8 ≤ v < (q + 1) * 10^8`, and the subsidy instrument
holds its conversion; every `v` below 10^8 gives 0 and `v = 500000000000` gives 5000. -/
theorem retrieveMetrics_subsidy_truncates (s : State F) (h : Int) (x : Hash)
    (b : MsgBlock) (tx : MsgTx) (out : TxOut) (n : Int) (d : F) (hps nhps : Int)
    (hpc : s.pc = .getBlockCount)
    (hc : (env s.cycle).Answers h x b n d hps nhps)
    (htx : b.Transactions[0]? = some tx) (hout : tx.TxOut[0]? = some out)
    (hv : 0 ≤ out.Value) :
    ∃ q : Int,
      (exec float64 env 5 s).pc = .setSubsidy q ∧
      (exec float64 env 15 s).inst.Subsidy = float64 q ∧
      q * 10 ^ 8 ≤ out.Value ∧ out.Value < (q + 1) * 10 ^ 8 ∧
      (∀ r : Int, r * 10 ^ 8 ≤ out.Value → out.Value < (r + 1) * 10 ^ 8 → r = q) ∧
      (out.Value < 10 ^ 8 → q = 0) ∧
      (out.Value = 500000000000 → q = 5000) := by
  refine ⟨Int.tdiv out.Value 100000000, ?_, ?_, ?_, ?_, ?_, ?_, ?_⟩
  · rw [exec_cycle_to_setSubsidy float64 env s h x b tx out hpc hc.1 hc.2.1 hc.2.2.1 htx hout]
  · rw [exec_cycle float64 env s h x b tx out n d hps nhps hpc hc htx hout]
  · exact ((tdiv_unique out.Value _ hv).2 rfl).1
  · exact ((tdiv_unique out.Value _ hv).2 rfl).2
  · intro r h1 h2
    exact (tdiv_unique out.Value r hv).1 ⟨h1, h2⟩
  · intro hlt
    exact ((tdiv_unique out.Value 0 hv).1 ⟨by omega, by omega⟩).symm
  · intro he
    rw [he]
    rfl

/-- Witness of C2: the node `envOk` returns a block paying 500000000000, and the
subsidy instrument holds 5000 after the first iteration. -/
theorem retrieveMetrics_subsidy_truncates_witness :
    (0 : Int) ≤ 500000000000 ∧ (exec id envOk 15 (init Int)).inst.Subsidy = 5000 :=
  ⟨by decide, by
    obtain ⟨q, _, h2, _, _, _, _, h7⟩ :=
      retrieveMetrics_subsidy_truncates id envOk (init Int) 120 7 okBlock
        ⟨[⟨500000000000⟩, ⟨42⟩]⟩ ⟨500000000000⟩ 8 3 1000 2000 rfl
        ⟨rfl, rfl, rfl, rfl, rfl, rfl, rfl⟩ rfl rfl (by decide)
    rw [h2, h7 rfl]
    rfl⟩

/-- C5: a successful iteration started at line 118 performs, in this order and each
once, GetBlockCount (returning `h`), BlockCount.Set, GetBlockHash on that `h`
(returning `x`), GetBlock on that `x`, Subsidy.Set, GetConnectionCount with its Set,
GetDifficulty with its Set, GetHashesPerSec with its Set, GetNetworkHashPS with its
Set, and a sleep of 60 * 10^9 nanoseconds; the queries and the sleep alone are the
eight listed actions; then the process is at line 118 of the next iteration and its
next action is GetBlockCount. -/
theorem retrieveMetrics_cycle_order (s : State F) (h : Int) (x : Hash)
    (b : MsgBlock) (tx : MsgTx) (out : TxOut) (n : Int) (d : F) (hps nhps : Int)
    (hpc : s.pc = .getBlockCount)
    (hc : (env s.cycle).Answers h x b n d hps nhps)
    (htx : b.Transactions[0]? = some tx) (hout : tx.TxOut[0]? = some out) :
    (exec float64 env 15 s).trace = s.trace ++
        [.GetBlockCount, .Set .BlockCount (float64 h), .GetBlockHash h, .GetBlock x,
         .Set .Subsidy (float64 (Int.tdiv out.Value 100000000)),
         .GetConnectionCount, .Set .ConnectionCount (float64 n),
         .GetDifficulty, .Set .Difficulty d,
         .GetHashesPerSec, .Set .HashesPerSec (float64 hps),
         .GetNetworkHashPS, .Set .NetworkHashesPerSec (float64 nhps),
         .Sleep (60 * 1000000000)] ∧
      (((exec float64 env 15 s).trace.drop s.trace.length).filter Event.isQueryOrSleep =
        [.GetBlockCount, .GetBlockHash h, .GetBlock x, .GetConnectionCount,
         .GetDifficulty, .GetHashesPerSec, .GetNetworkHashPS, .Sleep (60 * 1000000000)]) ∧
      (exec float64 env 15 s).pc = .getBlockCount ∧
      (exec float64 env 15 s).cycle = s.cycle + 1 ∧
      ∃ rest, (exec float64 env 16 s).trace =
        (exec float64 env 15 s).trace ++ .GetBlockCount :: rest := by
  have hM : Minute = 60 * 1000000000 := rfl
  have key := exec_cycle float64 env s h x b tx out n d hps nhps hpc hc htx hout
  refine ⟨?_, ?_, ?_, ?_, ?_⟩
  · rw [key, ← hM]; rfl
  · rw [key, ← hM]
    simp [cycleEvents, Event.isQueryOrSleep]
  · rw [key]
  · rw [key]
  · rw [show (16 : Nat) = 15 + 1 from rfl, exec_succ_last, key]
    cases hq : (env (s.cycle + 1)).GetBlockCount with
    | error err => exact ⟨[.Fatal err], by simp [step, State.fatal, hq]⟩
    | ok v => exact ⟨[], by simp [step, State.next, hq]⟩

/-- Witness of C5 on the node `envOk`, from process start. -/
theorem retrieveMetrics_cycle_order_witness :
    (exec id envOk 15 (init Int)).trace =
      [.GetBlockCount, .Set .BlockCount 120, .GetBlockHash 120, .GetBlock 7,
       .Set .Subsidy 5000, .GetConnectionCount, .Set .ConnectionCount 8,
       .GetDifficulty, .Set .Difficulty 3, .GetHashesPerSec, .Set .HashesPerSec 1000,
       .GetNetworkHashPS, .Set .NetworkHashesPerSec 2000, .Sleep 60000000000] :=
  (retrieveMetrics_cycle_order id envOk (init Int) 120 7 okBlock
    ⟨[⟨500000000000⟩, ⟨42⟩]⟩ ⟨500000000000⟩ 8 3 1000 2000 rfl
    ⟨rfl, rfl, rfl, rfl, rfl, rfl, rfl⟩ rfl rfl).1

/-- C8: when a successful iteration has reached its sleep (line 184), any number `k`
of scrapes return `k` times the six values the iteration wrote and leave the process
state as it was; the sleep statement itself leaves the six instruments as they are,
so scrapes made after it (before the next iteration writes) see the same values. -/
theorem scrape_between_cycles_unchanged (s : State F) (h : Int) (x : Hash)
    (b : MsgBlock) (tx : MsgTx) (out : TxOut) (n : Int) (d : F) (hps nhps : Int)
    (k : Nat)
    (hpc : s.pc = .getBlockCount)
    (hc : (env s.cycle).Answers h x b n d hps nhps)
    (htx : b.Transactions[0]? = some tx) (hout : tx.TxOut[0]? = some out) :
    (exec float64 env 14 s).pc = .sleep ∧
      (scrapes k (exec float64 env 14 s)).1 =
        List.replicate k
          ⟨float64 h, float64 (Int.tdiv out.Value 100000000), float64 n, d,
           float64 hps, float64 nhps⟩ ∧
      (scrapes k (exec float64 env 14 s)).2 = exec float64 env 14 s ∧
      (step float64 env (exec float64 env 14 s)).inst = (exec float64 env 14 s).inst ∧
      (scrapes k (step float64 env (exec float64 env 14 s))).1 =
        (scrapes k (exec float64 env 14 s)).1 := by
  have key := exec_cycle_to_sleep float64 env s h x b tx out n d hps nhps hpc hc htx hout
  simp only [scrapes_eq]
  rw [key]
  simp [step]

/-- Witness of C8: three scrapes during the sleep after the first iteration on the
node `envOk`. -/
theorem scrape_between_cycles_unchanged_witness :
    (scrapes 3 (exec id envOk 14 (init Int))).1 =
      [⟨120, 5000, 8, 3, 1000, 2000⟩, ⟨120, 5000, 8, 3, 1000, 2000⟩,
       ⟨120, 5000, 8, 3, 1000, 2000⟩] :=
  (scrape_between_cycles_unchanged id envOk (init Int) 120 7 okBlock
    ⟨[⟨500000000000⟩, ⟨42⟩]⟩ ⟨500000000000⟩ 8 3 1000 2000 3 rfl
    ⟨rfl, rfl, rfl, rfl, rfl, rfl, rfl⟩ rfl rfl).2.1

end Success

/-! ## Failing queries and the unguarded subsidy expression -/

section Failure

variable {F : Type} (float64 : Int → F) (env : Nat → Client F)

/-- C3, as stated, fails: on the node `envHashFails` only GetBlockHash fails; the first
iteration ends the process at that query, and block_count then holds 120, not the 0 it
held when the iteration started. -/
theorem failed_cycle_changes_block_count :
    pendingFailure envHashFails (exec id envHashFails 2 (init Int)) =
        some (.GetBlockHash 120, ⟨"rpc failure"⟩) ∧
      (exec id envHashFails 2 (init Int)).cycle = (init Int).cycle ∧
      (exec id envHashFails 3 (init Int)).terminated = true ∧
      (init Int).inst.BlockCount = 0 ∧
      (exec id envHashFails 3 (init Int)).inst.BlockCount = 120 ∧
      (exec id envHashFails 3 (init Int)).inst ≠ (init Int).inst := by
  refine ⟨rfl, rfl, rfl, rfl, rfl, ?_⟩
  intro h
  have h2 : (exec id envHashFails 3 (init Int)).inst.BlockCount = (init Int).inst.BlockCount := by
    rw [h]
  exact absurd h2 (by decide)

/-- C3, amended: when, `n` statements after a state `s0`, the query about to be issued
fails, the process ends at that query and stays ended, and at termination every
instrument on which no `Set` was performed since `s0` has the value it had in `s0`;
when `s0` is the start of the failing iteration (line 118, same iteration), every
instrument on which a `Set` was performed since holds this iteration's value, the
converted answer of its query; when the failing query is the first statement after
`s0`, all six instruments are as in `s0`. -/
theorem failed_cycle_keeps_unset_instruments (s0 : State F) (n : Nat) (q : Event F)
    (err : Error)
    (hfail : pendingFailure env (exec float64 env n s0) = some (q, err)) :
    (exec float64 env (n + 1) s0).pc = .exited err ∧
      (∀ k, exec float64 env (n + 1 + k) s0 = exec float64 env (n + 1) s0) ∧
      (∃ l, (exec float64 env (n + 1) s0).trace = s0.trace ++ l ∧
        (∀ m, (∀ v, Event.Set m v ∉ l) →
          (exec float64 env (n + 1) s0).inst.get m = s0.inst.get m) ∧
        (s0.pc = .getBlockCount → (exec float64 env n s0).cycle = s0.cycle →
          ∀ m, (∃ v, Event.Set m v ∈ l) →
            IsCycleValue float64 (env s0.cycle) m
              ((exec float64 env (n + 1) s0).inst.get m))) ∧
      (n = 0 → (exec float64 env (n + 1) s0).inst = s0.inst) := by
  have hs := (step_of_pendingFailure float64 env _ q err hfail).1
  have hpc : (exec float64 env (n + 1) s0).pc = .exited err := by
    rw [exec_succ_last, hs]
  refine ⟨hpc, fun k => ?_, ?_, ?_⟩
  · rw [exec_add]
    exact exec_of_terminated float64 env k _ (by simp [State.terminated, hpc])
  · obtain ⟨l, hl, hf⟩ := exec_frame float64 env (n + 1) s0
    refine ⟨l, hl, hf, fun h0 hc m hm => ?_⟩
    have hc1 : (exec float64 env (n + 1) s0).cycle = s0.cycle := by
      rw [exec_succ_last, hs]
      exact hc
    obtain ⟨_, _, l1, hl1, hw⟩ := exec_cycleInv float64 env s0 h0 (n + 1) hc1
    have hll : l1 = l := List.append_cancel_left (hl1.symm.trans hl)
    subst hll
    exact (hw m).2 hm
  · intro hn
    subst hn
    rw [exec_succ_last, hs]
    rfl

/-- Witness of amended C3 on the node `envHashFails` from process start: the process
ends at the third statement, and block_count, the one instrument written, holds the
value of this iteration. -/
theorem failed_cycle_keeps_unset_instruments_witness :
    pendingFailure envHashFails (exec id envHashFails 2 (init Int)) =
        some (.GetBlockHash 120, ⟨"rpc failure"⟩) ∧
      (exec id envHashFails (2 + 1) (init Int)).pc = .exited ⟨"rpc failure"⟩ ∧
      IsCycleValue id (envHashFails (init Int).cycle) .BlockCount
        ((exec id envHashFails (2 + 1) (init Int)).inst.get .BlockCount) ∧
      (exec id envHashFails (2 + 1) (init Int)).inst.get .BlockCount = 120 := by
  have h := failed_cycle_keeps_unset_instruments id envHashFails (init Int) 2
    (.GetBlockHash 120) ⟨"rpc failure"⟩ rfl
  refine ⟨rfl, h.1, ?_, rfl⟩
  obtain ⟨l, hl, _, hv⟩ := h.2.2.1
  have hl2 : l = [.GetBlockCount, .Set .BlockCount 120, .GetBlockHash 120,
      .Fatal ⟨"rpc failure"⟩] := by
    have e : (init Int).trace ++ l = l := rfl
    rw [e] at hl
    rw [← hl]
    rfl
  exact hv rfl rfl .BlockCount ⟨120, by rw [hl2]; simp⟩

/-- C4: in any state whose next statement is one of the seven queries, if the node
answers that query with an error then the statement records the query and the fatal
exit and nothing else: the process is in the exited state with that error, the
instruments and the iteration count are untouched, and from then on the state never
changes (no further query, no further `Set`, no sleep, no next iteration). -/
theorem query_failure_is_fatal (s : State F) (q : Event F) (err : Error)
    (hfail : pendingFailure env s = some (q, err)) :
    (step float64 env s).pc = .exited err ∧
      (step float64 env s).trace = s.trace ++ [q, .Fatal err] ∧
      q.isQueryOrSleep = true ∧
      (step float64 env s).inst = s.inst ∧
      (step float64 env s).cycle = s.cycle ∧
      ∀ k, exec float64 env k (step float64 env s) = step float64 env s := by
  obtain ⟨hs, hq⟩ := step_of_pendingFailure float64 env s q err hfail
  refine ⟨by rw [hs], by rw [hs], hq, by rw [hs], by rw [hs], fun k => ?_⟩
  exact exec_of_terminated float64 env k _ (by rw [hs]; rfl)

/-- Witness of C4: on the node `envOk` changed to fail GetDifficulty, the first
iteration reaches that query after eight statements and ends there. -/
theorem query_failure_is_fatal_witness :
    (step id envDifficultyFails
        (exec id envDifficultyFails 8
          (init Int))).pc = .exited ⟨"timeout"⟩ :=
  (query_failure_is_fatal id envDifficultyFails
    (exec id envDifficultyFails 8 (init Int))
    .GetDifficulty ⟨"timeout"⟩ rfl).1

/-- C9: with every query answered, a block whose transaction list is non-empty and
whose first transaction has a non-empty output list passes line 137 (the local
`subsidy` is set) and the iteration runs to its end; a block with no transaction, or
whose first transaction has no output, makes line 137 panic, the process is over for
good and block_count already holds the new height while the rest is as before; and
such an input exists. -/
theorem subsidy_extraction_unguarded (s : State F) (h : Int) (x : Hash)
    (b : MsgBlock) (n : Int) (d : F) (hps nhps : Int)
    (hpc : s.pc = .getBlockCount)
    (hc : (env s.cycle).Answers h x b n d hps nhps) :
    (∀ tx txs out outs, b.Transactions = tx :: txs → tx.TxOut = out :: outs →
        (exec float64 env 4 s).pc = .subsidy b ∧
        (exec float64 env 5 s).pc = .setSubsidy (Int.tdiv out.Value 100000000) ∧
        (exec float64 env 15 s).pc = .getBlockCount ∧
        (exec float64 env 15 s).cycle = s.cycle + 1) ∧
      ((b.Transactions = [] ∨ ∃ txs, b.Transactions = ⟨[]⟩ :: txs) →
        (exec float64 env 4 s).pc = .subsidy b ∧
        (exec float64 env 5 s).pc = .panicked ∧
        ∀ k, (exec float64 env (5 + k) s).pc = .panicked ∧
          (exec float64 env (5 + k) s).cycle = s.cycle ∧
          (exec float64 env (5 + k) s).inst = { s.inst with BlockCount := float64 h }) ∧
      (∃ (e : Nat → Client Int) (h0 : Int) (x0 : Hash) (b0 : MsgBlock) (n0 d0 p0 q0 : Int),
        (e 0).Answers h0 x0 b0 n0 d0 p0 q0 ∧
        (exec id e 5 (init Int)).pc = .panicked ∧
        (init Int).inst.BlockCount = 0 ∧
        (exec id e 5 (init Int)).inst.BlockCount = 120) := by
  obtain ⟨h1, h2, h3, h4, h5, h6, h7⟩ := hc
  have e4 : exec float64 env 4 s =
      { pc := .subsidy b, cycle := s.cycle, inst := { s.inst with BlockCount := float64 h },
        trace := s.trace ++
          [.GetBlockCount, .Set .BlockCount (float64 h), .GetBlockHash h, .GetBlock x] } := by
    obtain ⟨pc, c, i, t⟩ := s
    simp only at hpc h1 h2 h3
    subst hpc
    simp [exec, step, State.next, State.set, Instruments.Set, h1, h2, h3]
  refine ⟨?_, ?_, ?_⟩
  · intro tx txs out outs hb ht
    have htx : b.Transactions[0]? = some tx := by simp [hb]
    have hout : tx.TxOut[0]? = some out := by simp [ht]
    refine ⟨by rw [e4], ?_, ?_, ?_⟩
    · rw [exec_cycle_to_setSubsidy float64 env s h x b tx out hpc h1 h2 h3 htx hout]
    · rw [exec_cycle float64 env s h x b tx out n d hps nhps hpc
        ⟨h1, h2, h3, h4, h5, h6, h7⟩ htx hout]
    · rw [exec_cycle float64 env s h x b tx out n d hps nhps hpc
        ⟨h1, h2, h3, h4, h5, h6, h7⟩ htx hout]
  · intro hbad
    have e5 : exec float64 env 5 s =
        { pc := .panicked, cycle := s.cycle, inst := { s.inst with BlockCount := float64 h },
          trace := s.trace ++
            [.GetBlockCount, .Set .BlockCount (float64 h), .GetBlockHash h, .GetBlock x,
             .Panic] } := by
      rw [show (5 : Nat) = 4 + 1 from rfl, exec_succ_last, e4]
      rcases hbad with hb | ⟨txs, hb⟩ <;> simp [step, hb]
    refine ⟨by rw [e4], by rw [e5], fun k => ?_⟩
    rw [exec_add, e5, exec_of_terminated]
    · exact ⟨rfl, rfl, rfl⟩
    · rfl
  · exact ⟨envEmptyBlock, 120, 7, emptyBlock, 8, 3, 1000, 2000,
      ⟨rfl, rfl, rfl, rfl, rfl, rfl, rfl⟩, rfl, rfl, rfl⟩

/-- Witness of C9: the node `envOk` returns a block with a first output and the first
iteration completes; the node `envEmptyBlock` returns a block without transactions
and the process panics at the fifth statement. -/
theorem subsidy_extraction_unguarded_witness :
    (exec id envOk 15 (init Int)).pc = .getBlockCount ∧
      (exec id envEmptyBlock 5 (init Int)).pc = .panicked :=
  ⟨((subsidy_extraction_unguarded id envOk (init Int) 120 7 okBlock 8 3 1000 2000 rfl
      ⟨rfl, rfl, rfl, rfl, rfl, rfl, rfl⟩).1 ⟨[⟨500000000000⟩, ⟨42⟩]⟩ [⟨[]⟩]
      ⟨500000000000⟩ [⟨42⟩] rfl rfl).2.2.1,
   ((subsidy_extraction_unguarded id envEmptyBlock (init Int) 120 7 emptyBlock 8 3 1000 2000
      rfl ⟨rfl, rfl, rfl, rfl, rfl, rfl, rfl⟩).2.1 (Or.inl rfl)).2.1⟩

/-- C10: an iteration started at line 118 that ends at its first failing query leaves,
at termination and ever after, exactly the instruments set before that query with
this iteration's values and the others with the values they had when the iteration
started: nothing is changed when GetBlockCount fails; only block_count when
GetBlockHash or GetBlock fails; block_count and subsidy when GetConnectionCount
fails; also connection_count when GetDifficulty fails; also difficulty when
GetHashesPerSec fails; all but network_hashes_per_second when GetNetworkHashPS
fails. -/
theorem failed_cycle_written_instruments (s : State F) (h : Int) (x : Hash) (b : MsgBlock)
    (tx : MsgTx) (out : TxOut) (n : Int) (d : F) (hps : Int) (err : Error)
    (hpc : s.pc = .getBlockCount) :
    ((env s.cycle).GetBlockCount = .error err →
      ∀ k, (exec float64 env (1 + k) s).pc = .exited err ∧
        (exec float64 env (1 + k) s).inst = s.inst) ∧
    ((env s.cycle).GetBlockCount = .ok h →
      (env s.cycle).GetBlockHash h = .error err →
      ∀ k, (exec float64 env (3 + k) s).pc = .exited err ∧
        (exec float64 env (3 + k) s).inst = { s.inst with BlockCount := float64 h }) ∧
    ((env s.cycle).GetBlockCount = .ok h →
      (env s.cycle).GetBlockHash h = .ok x →
      (env s.cycle).GetBlock x = .error err →
      ∀ k, (exec float64 env (4 + k) s).pc = .exited err ∧
        (exec float64 env (4 + k) s).inst = { s.inst with BlockCount := float64 h }) ∧
    ((env s.cycle).GetBlockCount = .ok h →
      (env s.cycle).GetBlockHash h = .ok x →
      (env s.cycle).GetBlock x = .ok b →
      b.Transactions[0]? = some tx → tx.TxOut[0]? = some out →
      (env s.cycle).GetConnectionCount = .error err →
      ∀ k, (exec float64 env (7 + k) s).pc = .exited err ∧
        (exec float64 env (7 + k) s).inst =
          { s.inst with
            BlockCount := float64 h
            Subsidy := float64 (Int.tdiv out.Value 100000000) }) ∧
    ((env s.cycle).GetBlockCount = .ok h →
      (env s.cycle).GetBlockHash h = .ok x →
      (env s.cycle).GetBlock x = .ok b →
      b.Transactions[0]? = some tx → tx.TxOut[0]? = some out →
      (env s.cycle).GetConnectionCount = .ok n →
      (env s.cycle).GetDifficulty = .error err →
      ∀ k, (exec float64 env (9 + k) s).pc = .exited err ∧
        (exec float64 env (9 + k) s).inst =
          { s.inst with
            BlockCount := float64 h
            Subsidy := float64 (Int.tdiv out.Value 100000000)
            ConnectionCount := float64 n }) ∧
    ((env s.cycle).GetBlockCount = .ok h →
      (env s.cycle).GetBlockHash h = .ok x →
      (env s.cycle).GetBlock x = .ok b →
      b.Transactions[0]? = some tx → tx.TxOut[0]? = some out →
      (env s.cycle).GetConnectionCount = .ok n →
      (env s.cycle).GetDifficulty = .ok d →
      (env s.cycle).GetHashesPerSec = .error err →
      ∀ k, (exec float64 env (11 + k) s).pc = .exited err ∧
        (exec float64 env (11 + k) s).inst =
          { s.inst with
            BlockCount := float64 h
            Subsidy := float64 (Int.tdiv out.Value 100000000)
            ConnectionCount := float64 n
            Difficulty := d }) ∧
    ((env s.cycle).GetBlockCount = .ok h →
      (env s.cycle).GetBlockHash h = .ok x →
      (env s.cycle).GetBlock x = .ok b →
      b.Transactions[0]? = some tx → tx.TxOut[0]? = some out →
      (env s.cycle).GetConnectionCount = .ok n →
      (env s.cycle).GetDifficulty = .ok d →
      (env s.cycle).GetHashesPerSec = .ok hps →
      (env s.cycle).GetNetworkHashPS = .error err →
      ∀ k, (exec float64 env (13 + k) s).pc = .exited err ∧
        (exec float64 env (13 + k) s).inst =
          { s.inst with
            BlockCount := float64 h
            Subsidy := float64 (Int.tdiv out.Value 100000000)
            ConnectionCount := float64 n
            Difficulty := d
            HashesPerSec := float64 hps }) := by
  refine ⟨?_, ?_, ?_, ?_, ?_, ?_, ?_⟩
  · intro h1 k
    obtain ⟨pc, c, i, t⟩ := s
    simp only at hpc h1
    subst hpc
    rw [exec_add, exec_of_terminated] <;>
      simp [exec, step, State.next, State.set, State.fatal, Instruments.Set,
        State.terminated, h1]
  · intro h1 h2 k
    obtain ⟨pc, c, i, t⟩ := s
    simp only at hpc h1 h2
    subst hpc
    rw [exec_add, exec_of_terminated] <;>
      simp [exec, step, State.next, State.set, State.fatal, Instruments.Set,
        State.terminated, h1, h2]
  · intro h1 h2 h3 k
    obtain ⟨pc, c, i, t⟩ := s
    simp only at hpc h1 h2 h3
    subst hpc
    rw [exec_add, exec_of_terminated] <;>
      simp [exec, step, State.next, State.set, State.fatal, Instruments.Set,
        State.terminated, h1, h2, h3]
  · intro h1 h2 h3 htx hout h4 k
    obtain ⟨pc, c, i, t⟩ := s
    simp only at hpc h1 h2 h3 h4
    subst hpc
    rw [exec_add, exec_of_terminated] <;>
      simp [exec, step, State.next, State.set, State.fatal, Instruments.Set,
        State.terminated, htx, hout, h1, h2, h3, h4]
  · intro h1 h2 h3 htx hout h4 h5 k
    obtain ⟨pc, c, i, t⟩ := s
    simp only at hpc h1 h2 h3 h4 h5
    subst hpc
    rw [exec_add, exec_of_terminated] <;>
      simp [exec, step, State.next, State.set, State.fatal, Instruments.Set,
        State.terminated, htx, hout, h1, h2, h3, h4, h5]
  · intro h1 h2 h3 htx hout h4 h5 h6 k
    obtain ⟨pc, c, i, t⟩ := s
    simp only at hpc h1 h2 h3 h4 h5 h6
    subst hpc
    rw [exec_add, exec_of_terminated] <;>
      simp [exec, step, State.next, State.set, State.fatal, Instruments.Set,
        State.terminated, htx, hout, h1, h2, h3, h4, h5, h6]
  · intro h1 h2 h3 htx hout h4 h5 h6 h7 k
    obtain ⟨pc, c, i, t⟩ := s
    simp only at hpc h1 h2 h3 h4 h5 h6 h7
    subst hpc
    rw [exec_add, exec_of_terminated] <;>
      simp [exec, step, State.next, State.set, State.fatal, Instruments.Set,
        State.terminated, htx, hout, h1, h2, h3, h4, h5, h6, h7]

/-- Witness of C10: on the node `envOk` changed to fail GetNetworkHashPS, the first
iteration ends with five instruments written and network_hashes_per_second still 0. -/
theorem failed_cycle_written_instruments_witness :
    (exec id envNetworkHashFails (13 + 0)
        (init Int)).inst = ⟨120, 5000, 8, 3, 1000, 0⟩ :=
  ((failed_cycle_written_instruments id
      envNetworkHashFails (init Int) 120 7
      okBlock ⟨[⟨500000000000⟩, ⟨42⟩]⟩ ⟨500000000000⟩ 8 3 1000 ⟨"timeout"⟩ rfl).2.2.2.2.2.2
    rfl rfl rfl rfl rfl rfl rfl rfl rfl 0).2

end Failure

/-! ## block_count over many iterations, and the instruments before the first write -/

section Invariants

variable {F : Type} (float64 : Int → F) (env : Nat → Client F)

/-- One statement keeps `BlockCountInv` and does not lower block_count, when the
conversion is monotone and the heights never go down from one iteration to a later
one. -/
theorem step_blockCountInv [Preorder F]
    (hmono : ∀ a b : Int, a ≤ b → float64 a ≤ float64 b)
    (hinc : ∀ i j hi hj, i ≤ j → (env i).GetBlockCount = .ok hi →
      (env j).GetBlockCount = .ok hj → hi ≤ hj)
    (s : State F) (hI : BlockCountInv float64 env s) :
    BlockCountInv float64 env (step float64 env s) ∧
      s.inst.BlockCount ≤ (step float64 env s).inst.BlockCount := by
  obtain ⟨pc, c, i, t⟩ := s
  obtain ⟨b, hb, hle, hset⟩ := hI
  simp only at hb hle hset
  cases pc with
  | getBlockCount =>
    simp only [step]
    split
    · exact ⟨⟨b, hb, hle, fun _ hh => by cases hh⟩, le_refl _⟩
    · next h heq =>
      refine ⟨⟨b, hb, hle, fun h' hh => ?_⟩, le_refl _⟩
      simp only [State.next, PC.setBlockCount.injEq] at hh
      subst hh
      exact heq
  | setBlockCount h =>
    have hh := hset h rfl
    refine ⟨⟨h, rfl, fun j h' hj hq => hinc c j h h' hj hh hq, fun _ hq => by cases hq⟩, ?_⟩
    show i.BlockCount ≤ float64 h
    rw [hb]
    exact hmono _ _ (hle c h (le_refl _) hh)
  | sleep =>
    exact ⟨⟨b, hb, fun j h hj hq => hle j h (by have hj2 : c + 1 ≤ j := hj; omega) hq,
      fun _ hq => by cases hq⟩, le_refl _⟩
  | exited err => exact ⟨⟨b, hb, hle, fun _ hq => by cases hq⟩, le_refl _⟩
  | panicked => exact ⟨⟨b, hb, hle, fun _ hq => by cases hq⟩, le_refl _⟩
  | setSubsidy v => exact ⟨⟨b, hb, hle, fun _ hq => by cases hq⟩, le_refl _⟩
  | setConnectionCount v => exact ⟨⟨b, hb, hle, fun _ hq => by cases hq⟩, le_refl _⟩
  | setDifficulty v => exact ⟨⟨b, hb, hle, fun _ hq => by cases hq⟩, le_refl _⟩
  | setHashesPerSec v => exact ⟨⟨b, hb, hle, fun _ hq => by cases hq⟩, le_refl _⟩
  | setNetworkHashesPerSec v => exact ⟨⟨b, hb, hle, fun _ hq => by cases hq⟩, le_refl _⟩
  | subsidy blk =>
    simp only [step]
    split
    · exact ⟨⟨b, hb, hle, fun _ hq => by cases hq⟩, le_refl _⟩
    · split
      · exact ⟨⟨b, hb, hle, fun _ hq => by cases hq⟩, le_refl _⟩
      · exact ⟨⟨b, hb, hle, fun _ hq => by cases hq⟩, le_refl _⟩
  | _ =>
    simp only [step]
    split
    · exact ⟨⟨b, hb, hle, fun _ hq => by cases hq⟩, le_refl _⟩
    · exact ⟨⟨b, hb, hle, fun _ hq => by cases hq⟩, le_refl _⟩

/-- C6: block_count is declared as a counter (main.go, lines 29-35), a value that must
never decrease, yet line 125 stores whatever height the node returns: on the node
`envReorg` the height is 5 in the first iteration and 3 in the second, and
block_count reads 5 after the first iteration and 3 after the second statement of the
second one, a decrease. -/
theorem block_count_decreases_with_height :
    (exec id envReorg 15 (init Int)).inst.BlockCount = 5 ∧
      (exec id envReorg 17 (init Int)).inst.BlockCount = 3 ∧
      (exec id envReorg 17 (init Int)).inst.BlockCount <
        (exec id envReorg 15 (init Int)).inst.BlockCount := by
  have h15 : (exec id envReorg 15 (init Int)).inst.BlockCount = 5 := rfl
  have h17 : (exec id envReorg 17 (init Int)).inst.BlockCount = 3 := rfl
  refine ⟨h15, h17, ?_⟩
  rw [h15, h17]
  decide

/-- When the heights returned by GetBlockCount are non-negative and never go down
from one iteration to a later one (the conversion being monotone and exact at 0), the
value read from block_count never decreases from one state of the process to a later
one. -/
theorem block_count_monotone_of_heights [Zero F] [Preorder F]
    (hz : float64 0 = 0)
    (hmono : ∀ a b : Int, a ≤ b → float64 a ≤ float64 b)
    (hnn : ∀ j h, (env j).GetBlockCount = .ok h → 0 ≤ h)
    (hinc : ∀ i j hi hj, i ≤ j → (env i).GetBlockCount = .ok hi →
      (env j).GetBlockCount = .ok hj → hi ≤ hj)
    (m k : Nat) :
    (scrape (exec float64 env m (init F))).1.BlockCount ≤
      (scrape (exec float64 env (m + k) (init F))).1.BlockCount := by
  have hInv : ∀ n, BlockCountInv float64 env (exec float64 env n (init F)) := by
    intro n
    induction n with
    | zero =>
      exact ⟨0, hz.symm, fun j h _ hq => hnn j h hq, fun _ hq => by cases hq⟩
    | succ n ih =>
      rw [exec_succ_last]
      exact (step_blockCountInv float64 env hmono hinc _ ih).1
  show (exec float64 env m (init F)).inst.BlockCount ≤
    (exec float64 env (m + k) (init F)).inst.BlockCount
  induction k with
  | zero => exact le_refl _
  | succ k ih =>
    rw [← Nat.add_assoc, exec_succ_last]
    exact le_trans ih (step_blockCountInv float64 env hmono hinc _ (hInv (m + k))).2

/-- On the node `envGrowing`, block_count after two statements is at most block_count
seventeen statements later. -/
theorem block_count_monotone_of_heights_witness :
    (scrape (exec id envGrowing 2 (init Int))).1.BlockCount ≤
      (scrape (exec id envGrowing (2 + 17) (init Int))).1.BlockCount :=
  block_count_monotone_of_heights id envGrowing rfl (fun _ _ hab => hab)
    (fun j h hq => by
      have e : (100 : Int) + (j : Int) = h := Except.ok.inj hq
      omega)
    (fun i j hi hj hij hq1 hq2 => by
      have e1 : (100 : Int) + (i : Int) = hi := Except.ok.inj hq1
      have e2 : (100 : Int) + (j : Int) = hj := Except.ok.inj hq2
      omega)
    2 17

/-- C7, as stated, fails: on the node `envOk`, two statements after process start the
first iteration is still running (it stands at line 127) and a scrape reads 120, not
0, from block_count. -/
theorem block_count_written_before_first_cycle_completes :
    (exec id envOk 2 (init Int)).cycle = 0 ∧
      (exec id envOk 2 (init Int)).pc = .getBlockHash 120 ∧
      (scrape (exec id envOk 2 (init Int))).1.BlockCount = 120 ∧
      (scrape (exec id envOk 2 (init Int))).1 ≠ Instruments.new Int := by
  refine ⟨rfl, rfl, rfl, ?_⟩
  intro h
  have h2 : (scrape (exec id envOk 2 (init Int))).1.BlockCount =
      (Instruments.new Int).BlockCount := by rw [h]
  exact absurd h2 (by decide)

/-- C7, amended: in every state reachable from process start (so in every state
before the first iteration has completed), a scrape reads zero from each instrument
on which no `Set` has been performed yet; and in the states reached by at most one
statement (before the first BlockCount.Set) it reads zero from all six. -/
theorem unset_instruments_read_zero [Zero F] (n : Nat) :
    (∀ m, (∀ v, Event.Set m v ∉ (exec float64 env n (init F)).trace) →
        (scrape (exec float64 env n (init F))).1.get m = 0) ∧
      (n ≤ 1 → (scrape (exec float64 env n (init F))).1 = Instruments.new F) := by
  constructor
  · intro m hm
    obtain ⟨l, hl, hf⟩ := exec_frame float64 env n (init F)
    have hl2 : (exec float64 env n (init F)).trace = l := by simpa [init] using hl
    have := hf m (fun v hv => hm v (hl2 ▸ hv))
    show (exec float64 env n (init F)).inst.get m = 0
    rw [this]
    cases m <;> rfl
  · intro hn
    show (exec float64 env n (init F)).inst = Instruments.new F
    have h01 : n = 0 ∨ n = 1 := by omega
    rcases h01 with rfl | rfl
    · rfl
    · simp only [exec, step, init]
      split <;> rfl

/-- Witness of amended C7 on the node `envOk`: after one statement all six instruments
read zero. -/
theorem unset_instruments_read_zero_witness :
    (1 ≤ 1) ∧ (scrape (exec id envOk 1 (init Int))).1 = Instruments.new Int :=
  ⟨le_refl 1, (unset_instruments_read_zero id envOk 1).2 (le_refl 1)⟩

end Invariants

end CoinExporter
